import Mathlib

/-!
# Verification of the ISCA swim-meet scorer core

Shallow embedding of the scoring / parsing core of the SwimMeetScorerISCA
repository, together with theorems settling the frozen claims about it.

Modelling conventions:
* Python floats are modelled as rationals (`ℚ`); the claims under
  consideration involve only exact decimal arithmetic.  Two-decimal
  rendering (`%.2f`) is modelled as round-to-nearest (ties never arise in
  the values considered here).
* Python dicts are modelled as association lists with first-match lookup
  (keys are unique in every dict the source builds).
* Code that can raise an exception is modelled in `Except String`, the
  error string naming the Python exception.
* `float(...)` applied to a string is modelled for plain decimal literals
  (optional sign, digits, optional decimal point); exponent/inf/nan forms
  never occur in the inputs the claims are about.
* Python string helpers (`split`, `lower`, `strip`, substring test) are
  modelled by structural recursion over the character list, with ASCII
  case folding — all header/event strings involved are ASCII.
-/

namespace SwimScorer

/-- Python `d.get(k)` on a dict modelled as an association list. -/
def dictGet {α β : Type} [BEq α] (d : List (α × β)) (k : α) : Option β :=
  (d.find? (fun p => p.1 == k)).map (fun p => p.2)

/-- Split a character list on a separator character, Python `str.split(sep)`
semantics: always at least one (possibly empty) field. -/
def splitCh (sep : Char) : List Char → List (List Char)
  | [] => [[]]
  | c :: rest =>
      match splitCh sep rest with
      | [] => if c == sep then [[], []] else [[c]]
      | g :: gs => if c == sep then [] :: g :: gs else (c :: g) :: gs

/-- Python `s.split(sep)` for a one-character separator. -/
def pySplit (s : String) (sep : Char) : List String :=
  (splitCh sep s.data).map String.mk

/-- Python `s.lower()` (ASCII). -/
def pyLower (s : String) : String := String.mk (s.data.map Char.toLower)

/-- Python `s.strip()`: drop leading and trailing whitespace. -/
def pyStrip (s : String) : String :=
  String.mk (((s.data.dropWhile Char.isWhitespace).reverse.dropWhile
    Char.isWhitespace).reverse)

/-- Python `needle in hay` substring test on character lists. -/
def chSub (needle : List Char) : List Char → Bool
  | [] => needle.isEmpty
  | c :: rest => List.isPrefixOf needle (c :: rest) || chSub needle rest

/-- Python `needle in hay` substring test on strings. -/
def strContains (hay needle : String) : Bool := chSub needle.data hay.data

/-- Raw result of scanning a decimal literal: (negative sign?, integer
part, fraction digits value, number of fraction digits). -/
def pyFloatRaw (s : String) : Option (Bool × ℕ × ℕ × ℕ) :=
  let signed : Bool × List Char :=
    match s.data with
    | '-' :: r => (true, r)
    | '+' :: r => (false, r)
    | r => (false, r)
  let intDigits := signed.2.takeWhile Char.isDigit
  let rest := signed.2.dropWhile Char.isDigit
  let intVal : ℕ := intDigits.foldl (fun n c => n * 10 + (c.toNat - 48)) 0
  match rest with
  | [] => if intDigits.isEmpty then none else some (signed.1, intVal, 0, 0)
  | '.' :: frac =>
      if frac.all Char.isDigit ∧ ¬(intDigits.isEmpty ∧ frac.isEmpty) then
        some (signed.1, intVal, frac.foldl (fun n c => n * 10 + (c.toNat - 48)) 0,
          frac.length)
      else none
  | _ => none

/-- Model of Python `float(s)` for plain decimal literals.  Returns `none`
where Python `float` raises `ValueError`. -/
def pyFloat (s : String) : Option ℚ :=
  (pyFloatRaw s).map (fun r =>
    (if r.1 then (-1 : ℚ) else 1) * ((r.2.1 : ℚ) + (r.2.2.1 : ℚ) / 10 ^ r.2.2.2))

/-- `parse_swim_time` from `isca_swim_scorer/core/utils.py`: empty string or
`"---"` gives 0; otherwise split on `:` and combine 3 parts as h:m:s,
2 parts as m:s, and anything else as `float(parts[0])`.  `Except.error`
models the `ValueError` Python's `float` raises on a malformed part. -/
def parse_swim_time (time_str : String) : Except String ℚ :=
  if time_str = "" ∨ time_str = "---" then .ok 0
  else
    match pySplit time_str ':' with
    | [h, m, sec] =>
        match pyFloat h, pyFloat m, pyFloat sec with
        | some a, some b, some c => .ok (a * 3600 + b * 60 + c)
        | _, _, _ => .error "ValueError"
    | [m, sec] =>
        match pyFloat m, pyFloat sec with
        | some a, some b => .ok (a * 60 + b)
        | _, _ => .error "ValueError"
    | parts =>
        match pyFloat (parts.headD "") with
        | some a => .ok a
        | none => .error "ValueError"

/-- Two-digit zero padding used by Python's `%05.2f` / `%.2f` rendering. -/
def padTwo (n : ℕ) : String :=
  if n < 10 then "0" ++ toString n else toString n

/-- Python `f"{r:.2f}"` for a nonnegative rational: round to two decimals,
no width padding. -/
def fmt2 (r : ℚ) : String :=
  toString ((⌊r * 100 + 1/2⌋).toNat / 100) ++ "." ++ padTwo ((⌊r * 100 + 1/2⌋).toNat % 100)

/-- Python `f"{r:05.2f}"` for a nonnegative rational below 100: round to
two decimals, zero-pad the integer part to width two. -/
def fmt052 (r : ℚ) : String :=
  padTwo ((⌊r * 100 + 1/2⌋).toNat / 100) ++ "." ++ padTwo ((⌊r * 100 + 1/2⌋).toNat % 100)

/-- The three-way branch of `format_swim_time` after both `divmod` steps. -/
def formatHMS (hours mins : ℤ) (secs : ℚ) : String :=
  if 0 < hours then toString hours ++ ":" ++ toString mins ++ ":" ++ fmt052 secs
  else if 0 < mins then toString mins ++ ":" ++ fmt052 secs
  else fmt2 secs

/-- `format_swim_time` from `isca_swim_scorer/core/utils.py` for a positive
duration: `divmod(seconds, 60)` then `divmod(minutes, 60)`. -/
def formatPos (seconds : ℚ) : String :=
  formatHMS (⌊seconds / 60⌋ / 60) (⌊seconds / 60⌋ % 60) (seconds - 60 * ⌊seconds / 60⌋)

/-- `format_swim_time` from `isca_swim_scorer/core/utils.py`: `"---"` for a
missing/non-positive duration, otherwise `H:MM:SS.ss`, `M:SS.ss` or
`SS.ss`. -/
def format_swim_time (seconds : ℚ) : String :=
  if seconds ≤ 0 then "---" else formatPos seconds

/-! ## Scoring system (`isca_swim_scorer/scoring/scoring_system.py`) -/

/-- A point table: Python dict `{time: points}` (float keys, unique). -/
abbrev PointTable := List (ℚ × ℚ)

/-- Python dict `{event: point_table}`. -/
abbrev EventDict := List (String × PointTable)

/-- Python dict `{gender: {event: point_table}}` — one `pointSystemN`. -/
abbrev GenderDict := List (String × EventDict)

/-- The scoring singleton's per-age point systems, as loaded in
`ScoringSystem.__init__` (`pointSystem6` … `pointSystem15plus`). -/
structure ScoringSystem where
  ps6 : GenderDict
  ps7 : GenderDict
  ps8 : GenderDict
  ps9 : GenderDict
  ps10 : GenderDict
  ps11 : GenderDict
  ps12 : GenderDict
  ps13 : GenderDict
  ps14 : GenderDict
  ps15plus : GenderDict

/-- `self.point_systems`: the dict with integer keys 6..15 built in
`ScoringSystem.__init__`. -/
def pointSystems (s : ScoringSystem) : List (ℤ × GenderDict) :=
  [(6, s.ps6), (7, s.ps7), (8, s.ps8), (9, s.ps9), (10, s.ps10),
   (11, s.ps11), (12, s.ps12), (13, s.ps13), (14, s.ps14), (15, s.ps15plus)]

/-- Age-resolution step of `ScoringSystem._get_point_table`: clamp a present
age to itself when `0 < age < 15` else 15; absent age falls back to the
event max age when present, else 15. -/
def resolvePointAge (age : Option ℤ) (event_max_age : Option ℤ) : ℤ :=
  match age with
  | none =>
      match event_max_age with
      | some m => m
      | none => 15
  | some a => if 0 < a ∧ a < 15 then a else 15

/-- First word of the event key, with `"Mixed"` rewritten to `"Men's"`
(`_get_point_table` lines 26-31). -/
def genderWord (event_key : String) : String :=
  let w := (pySplit event_key ' ').headD ""
  if w = "Mixed" then "Men's" else w

/-- The event key with its first word removed (`" ".join(words[1:])`). -/
def actualEvent (event_key : String) : String :=
  String.intercalate " " (pySplit event_key ' ').tail

/-- Point-system selection of `_get_point_table`: the table for the
resolved age when present and non-empty (Python truthiness), else the
15-plus system when non-empty, else none (the warning path). -/
def resolvePointSystem (s : ScoringSystem) (point_age : ℤ) : Option GenderDict :=
  match dictGet (pointSystems s) point_age with
  | some d =>
      if d.isEmpty then (if s.ps15plus.isEmpty then none else some s.ps15plus)
      else some d
  | none => if s.ps15plus.isEmpty then none else some s.ps15plus

/-- `ScoringSystem._get_point_table`.  The final line
`point_system.get(event_gender).get(actual_event)` raises `AttributeError`
when the gender word is not a key of the resolved system (`.get` on
`None`); this is modelled by `Except.error`. -/
def getPointTable (s : ScoringSystem) (event_key : String) (age : Option ℤ)
    (event_max_age : Option ℤ) : Except String (Option PointTable) :=
  match resolvePointSystem s (resolvePointAge age event_max_age) with
  | none => .ok none
  | some d =>
      match dictGet d (genderWord event_key) with
      | none => .error "AttributeError"
      | some ed => .ok (dictGet ed (actualEvent event_key))

/-- A performance value as passed to `calculate_points`: Python `None`, a
float, or a string still to be parsed. -/
inductive Perf where
  | none
  | num (q : ℚ)
  | str (s : String)

/-- Python tuple comparison `(t1, p1) <= (t2, p2)` used by `sorted` on
`dict.items()`. -/
abbrev pairLE (a b : ℚ × ℚ) : Prop := a.1 < b.1 ∨ (a.1 = b.1 ∧ a.2 ≤ b.2)

/-- `sorted(point_table.items())`. -/
def sortPairs (l : List (ℚ × ℚ)) : List (ℚ × ℚ) := l.insertionSort pairLE

/-- Value of the linear segment through `p` and `q` at `x`. -/
def interpSeg (p q : ℚ × ℚ) (x : ℚ) : ℚ :=
  p.2 + (q.2 - p.2) * (x - p.1) / (q.1 - p.1)

/-- `scipy.interpolate.interp1d(times, points, fill_value="extrapolate")`
evaluated at `x`: piecewise-linear through the sorted nodes, extending the
outermost segments linearly.  Lists of fewer than two nodes make scipy
raise; callers guard that case, the values returned here for them are
irrelevant. -/
def interpLinear : List (ℚ × ℚ) → ℚ → ℚ
  | [], _ => 0
  | [_], _ => 0
  | [p, q], x => interpSeg p q x
  | p :: q :: r :: rest, x =>
      if x ≤ q.1 then interpSeg p q x else interpLinear (q :: r :: rest) x

/-- `ScoringSystem.calculate_points`: look up the point table (0 when it is
`None`), convert a string time, return 0 for a missing or non-positive
time, interpolate with extrapolation, and floor the score at 0.
`Except.error` covers the `AttributeError` from the table lookup, the
`ValueError` from `float` on a malformed time string, and the `ValueError`
scipy raises for tables with fewer than two entries. -/
def calculate_points (s : ScoringSystem) (event_key : String) (time : Perf)
    (age : Option ℤ) (event_max_age : Option ℤ) : Except String ℚ :=
  match getPointTable s event_key age event_max_age with
  | .error e => .error e
  | .ok Option.none => .ok 0
  | .ok (some tbl) =>
      match (match time with
             | .none => Except.ok Option.none
             | .num q => Except.ok (some q)
             | .str st =>
                 match parse_swim_time st with
                 | .ok q => Except.ok (some q)
                 | .error e => Except.error e : Except String (Option ℚ)) with
      | .error e => .error e
      | .ok Option.none => .ok 0
      | .ok (some t) =>
          if t ≤ 0 then .ok 0
          else
            if (sortPairs tbl).length < 2 then .error "ValueError"
            else
              if 0 < interpLinear (sortPairs tbl) t then
                .ok (interpLinear (sortPairs tbl) t)
              else .ok 0

/-! ## `PointSystem.get_points` (`isca_point_scorer/apps/scoring/models.py`)

The table data is a JSON dict `{gender: {event: {time_string: points}}}`;
the method converts each `(time, points)` pair with `float` before use, so
the table is modelled directly as rational pairs. -/

/-- `self.data.get(gender, {}).get(event_key, {})`. -/
def lookupEventData (data : GenderDict) (gender event_key : String) : PointTable :=
  (dictGet ((dictGet data gender).getD []) event_key).getD []

/-- `PointSystem.get_points`: 0 for a non-positive time or an empty event
table; clamp to the first point value below the fastest time; linear
penalty of 10 points per second beyond the slowest time, floored at 0;
linear interpolation inside the table. -/
def get_points (data : GenderDict) (gender event_key : String)
    (time_seconds : ℚ) : ℚ :=
  if time_seconds ≤ 0 then 0
  else
    if (lookupEventData data gender event_key).isEmpty then 0
    else
      if time_seconds ≤ ((sortPairs (lookupEventData data gender event_key)).map Prod.fst).headD 0 then
        ((sortPairs (lookupEventData data gender event_key)).map Prod.snd).headD 0
      else if ((sortPairs (lookupEventData data gender event_key)).map Prod.fst).getLastD 0 ≤ time_seconds then
        max 0 (((sortPairs (lookupEventData data gender event_key)).map Prod.snd).getLastD 0
          - (time_seconds - ((sortPairs (lookupEventData data gender event_key)).map Prod.fst).getLastD 0) * 10)
      else interpLinear (sortPairs (lookupEventData data gender event_key)) time_seconds

/-! ## Best-time resolution -/

/-- The three phase times of a `Result` (`meets/models.py`); `none` models
a SQL NULL. -/
structure ResultRec where
  prelim_time : Option ℚ
  swim_off_time : Option ℚ
  final_time : Option ℚ

/-- Python truthiness-and-positivity test `v and v > 0` on an optional
float (`None` and `0.0` are falsy). -/
def isPosTime : Option ℚ → Bool
  | some q => decide (0 < q)
  | Option.none => false

/-- `Result.best_time` (`meets/models.py` lines 156-167): collect the
present positive phase times (final, prelim, swim-off order) and return
their minimum, 0 when none exist. -/
def best_time (r : ResultRec) : ℚ :=
  (((if isPosTime r.final_time then [r.final_time.getD 0] else []) ++
    (if isPosTime r.prelim_time then [r.prelim_time.getD 0] else []) ++
    (if isPosTime r.swim_off_time then [r.swim_off_time.getD 0] else [])).min?).getD 0

/-- Best-time determination in `uploads/parser.py` lines 160-167: an
if/elif chain preferring finals, then prelim, then swim-off, among present
positive times. -/
def parserBestTime (finals prelim swimoff : Option ℚ) : Option ℚ :=
  if isPosTime finals then finals
  else if isPosTime prelim then prelim
  else if isPosTime swimoff then swimoff
  else Option.none

/-- The formatted best time used in the duplicate-detection key of
`uploads/tasks.py` lines 357-364: same priority chain, formatted, `""`
when no phase time is positive. -/
def tasksBestTimeKey (final prelim swimoff : Option ℚ) : String :=
  if isPosTime final then format_swim_time (final.getD 0)
  else if isPosTime prelim then format_swim_time (prelim.getD 0)
  else if isPosTime swimoff then format_swim_time (swimoff.getD 0)
  else ""

/-- Modelled from the spec: the best value is "the priority-ordered pick
among final/preliminary/swim-off performance values" — the first present
positive value in that priority order. -/
def specBestValue (final prelim swimoff : Option ℚ) : Option ℚ :=
  (([final, prelim, swimoff].filterMap (fun v =>
      match v with
      | some q => if 0 < q then some q else Option.none
      | Option.none => Option.none)).head?)

/-! ## Column identification (`uploads/dryland_parser.py`, `identify_columns`) -/

/-- The `column_mapping` dict built by `identify_columns`. -/
structure ColumnMap where
  first_name : Option ℕ := Option.none
  last_name : Option ℕ := Option.none
  name : Option ℕ := Option.none
  age : Option ℕ := Option.none
  team : Option ℕ := Option.none
  gender : Option ℕ := Option.none
  events : List (String × ℕ) := []
deriving DecidableEq

/-- First-name synonym list. -/
def firstNameSyns : List String := ["first name", "firstname", "first", "fname"]

/-- Last-name synonym list. -/
def lastNameSyns : List String := ["last name", "lastname", "last", "lname", "surname"]

/-- Full-name synonym list. -/
def fullNameSyns : List String :=
  ["name", "athlete", "swimmer", "athlete name", "swimmer name", "full name"]

/-- Age synonym list. -/
def ageSyns : List String := ["age", "athlete age", "swimmer age"]

/-- Team synonym list. -/
def teamSyns : List String := ["team", "club", "team name", "club name", "team code"]

/-- Gender synonym list (exact matches; `"gender"` also matches as a
substring). -/
def genderSyns : List String := ["sex", "m/f", "male/female"]

/-- Dryland event keyword list. -/
def eventKeywords : List String :=
  ["chin-up", "chinup", "chin up", "pull-up", "pullup", "pull up",
   "dip", "dips", "tricep dip", "tricep dips",
   "vertical jump", "vert jump", "jump", "standing jump",
   "push-up", "pushup", "push up", "press-up", "pressup",
   "sit-up", "situp", "sit up", "crunch", "crunches",
   "plank", "planks", "plank hold",
   "burpee", "burpees",
   "sprint", "run", "dash", "mile", "100m", "200m", "400m",
   "squat", "squats", "leg press",
   "bench", "bench press",
   "deadlift", "dead lift"]

/-- `header_lower.replace(' ', '').replace('-', '').replace('(', '').replace(')', '')`. -/
def stripPunct (s : String) : String :=
  String.mk (s.data.filter (fun c => c ≠ ' ' ∧ c ≠ '-' ∧ c ≠ '(' ∧ c ≠ ')'))

/-- Python `s.isalnum()`: non-empty and all characters alphanumeric
(ASCII model). -/
def pyIsAlnum (s : String) : Prop := s ≠ "" ∧ s.data.all Char.isAlphanum

instance (s : String) : Decidable (pyIsAlnum s) := by
  unfold pyIsAlnum
  infer_instance

/-- The final `elif` condition of `identify_columns`: the original header
is truthy and either contains an event keyword or survives the
alphanumeric fallback test. -/
def eventCond (header : String) : Prop :=
  header ≠ "" ∧
    (eventKeywords.any (fun kw => strContains (pyStrip (pyLower header)) kw) = true ∨
      (pyIsAlnum (stripPunct (pyStrip (pyLower header))) ∧
        2 < (pyStrip (pyLower header)).length ∧
        pyStrip (pyLower header) ∉
          (["age", "team", "name", "first", "last", "gender"] : List String)))

instance (h : String) : Decidable (eventCond h) := by
  unfold eventCond
  infer_instance

/-- One iteration of the `identify_columns` loop body for header `header`
at column index `i`, starting from the mapping built so far.  The `elif`
chain is modelled branch for branch; each single-valued role is assigned
by plain dict assignment (overwriting any earlier value), the full-name
role only while neither split-name role is present, and event headers are
appended to the `events` list. -/
def classifyStep (cm : ColumnMap) (i : ℕ) (header : String) : ColumnMap :=
  if pyStrip (pyLower header) ∈ firstNameSyns then { cm with first_name := some i }
  else if pyStrip (pyLower header) ∈ lastNameSyns then { cm with last_name := some i }
  else if pyStrip (pyLower header) ∈ fullNameSyns then
    (if cm.first_name = Option.none ∧ cm.last_name = Option.none then
      { cm with name := some i } else cm)
  else if pyStrip (pyLower header) ∈ ageSyns then { cm with age := some i }
  else if pyStrip (pyLower header) ∈ teamSyns then { cm with team := some i }
  else if strContains (pyStrip (pyLower header)) "gender" = true ∨
      pyStrip (pyLower header) ∈ genderSyns then { cm with gender := some i }
  else if eventCond header then { cm with events := cm.events ++ [(header, i)] }
  else cm

/-- `identify_columns` from `uploads/dryland_parser.py`: fold the
classification step over the headers with their indices. -/
def identify_columns (headers : List String) : ColumnMap :=
  (headers.enum).foldl (fun cm p => classifyStep cm p.1 p.2) {}

/-! ## Concrete fixtures used by counterexamples and witnesses -/

/-- A scoring system whose ten point systems are all the empty dict. -/
def emptySystem : ScoringSystem := ⟨[], [], [], [], [], [], [], [], [], []⟩

/-- A scoring system whose age-10 point system holds one men's table. -/
def sys1 : ScoringSystem :=
  ⟨[], [], [], [], [("Men's", [("100 Free", [(10, 100), (20, 50)])])], [], [], [], [], []⟩

/-- A scoring system where every bucket 6–14 maps `Men's 100 Free` to the
table `[(1, 1)]` while the 15-plus system maps it to `[(2, 2)]`. -/
def sysA : ScoringSystem :=
  ⟨[("Men's", [("100 Free", [(1, 1)])])], [("Men's", [("100 Free", [(1, 1)])])],
   [("Men's", [("100 Free", [(1, 1)])])], [("Men's", [("100 Free", [(1, 1)])])],
   [("Men's", [("100 Free", [(1, 1)])])], [("Men's", [("100 Free", [(1, 1)])])],
   [("Men's", [("100 Free", [(1, 1)])])], [("Men's", [("100 Free", [(1, 1)])])],
   [("Men's", [("100 Free", [(1, 1)])])], [("Men's", [("100 Free", [(2, 2)])])]⟩

/-! ## Infrastructure lemmas -/

instance {ε α : Type} [DecidableEq ε] [DecidableEq α] : DecidableEq (Except ε α) :=
  fun a b =>
  match a, b with
  | .ok x, .ok y => if h : x = y then isTrue (by rw [h]) else isFalse (by simp [h])
  | .error x, .error y => if h : x = y then isTrue (by rw [h]) else isFalse (by simp [h])
  | .ok _, .error _ => isFalse (by simp)
  | .error _, .ok _ => isFalse (by simp)

/-- A successful association-list lookup returns a value stored in the
list. -/
lemma dictGet_mem {α β : Type} [BEq α] {d : List (α × β)} {k : α} {v : β}
    (h : dictGet d k = some v) : ∃ p ∈ d, p.2 = v := by
  unfold dictGet at h
  cases hf : d.find? (fun p => p.1 == k) with
  | none => rw [hf] at h; simp at h
  | some p =>
      rw [hf] at h
      simp at h
      exact ⟨p, List.mem_of_find?_eq_some hf, h⟩

/-- Evaluation of `parse_swim_time` through a single-field split. -/
lemma parse_eval_one (s h : String) (v : ℚ) (hs : ¬(s = "" ∨ s = "---"))
    (hsp : pySplit s ':' = [h]) (hv : pyFloat h = some v) :
    parse_swim_time s = .ok v := by
  simp only [parse_swim_time, if_neg hs, hsp, hv, List.headD]

/-- Evaluation of `parse_swim_time` through a two-field split. -/
lemma parse_eval_two (s m sec : String) (vm vs : ℚ) (hs : ¬(s = "" ∨ s = "---"))
    (hsp : pySplit s ':' = [m, sec]) (hm : pyFloat m = some vm)
    (hsec : pyFloat sec = some vs) :
    parse_swim_time s = .ok (vm * 60 + vs) := by
  simp only [parse_swim_time, if_neg hs, hsp, hm, hsec]

/-- Evaluation of `parse_swim_time` through a three-field split. -/
lemma parse_eval_three (s h m sec : String) (vh vm vs : ℚ)
    (hs : ¬(s = "" ∨ s = "---")) (hsp : pySplit s ':' = [h, m, sec])
    (hh : pyFloat h = some vh) (hm : pyFloat m = some vm)
    (hsec : pyFloat sec = some vs) :
    parse_swim_time s = .ok (vh * 3600 + vm * 60 + vs) := by
  simp only [parse_swim_time, if_neg hs, hsp, hh, hm, hsec]

/-- Evaluation of `pyFloat` from the raw digit scan. -/
lemma pyFloat_eval (s : String) (i f k : ℕ) (hr : pyFloatRaw s = some (false, i, f, k)) :
    pyFloat s = some ((i : ℚ) + (f : ℚ) / 10 ^ k) := by
  simp only [pyFloat, hr, Option.map_some]
  norm_num

/-- Evaluation of `format_swim_time` on a positive duration given the
value of the first `divmod`. -/
lemma format_eval (x : ℚ) (m : ℤ) (hx : ¬x ≤ 0) (hm : ⌊x / 60⌋ = m) :
    format_swim_time x = formatHMS (m / 60) (m % 60) (x - 60 * m) := by
  rw [format_swim_time, if_neg hx, formatPos, hm]

/-! ## Claim C5 -/

/-- Helper: `format_swim_time 23.45 = "23.45"`. -/
lemma fmt_a : format_swim_time (2345/100) = "23.45" := by
  rw [format_eval (2345/100) 0 (by norm_num) (by (rw [Int.floor_eq_iff]; norm_num))]
  norm_num [formatHMS]
  rw [fmt2, show ⌊(469/20 : ℚ) * 100 + 1/2⌋ = 2345 from by (rw [Int.floor_eq_iff]; norm_num)]
  decide

/-- Helper: `format_swim_time 63.21 = "1:03.21"`. -/
lemma fmt_b : format_swim_time (6321/100) = "1:03.21" := by
  rw [format_eval (6321/100) 1 (by norm_num) (by (rw [Int.floor_eq_iff]; norm_num))]
  norm_num [formatHMS]
  rw [fmt052, show ⌊(321/100 : ℚ) * 100 + 1/2⌋ = 321 from by (rw [Int.floor_eq_iff]; norm_num)]
  decide

/-- Helper: `format_swim_time 123.45 = "2:03.45"`. -/
lemma fmt_c : format_swim_time (12345/100) = "2:03.45" := by
  rw [format_eval (12345/100) 2 (by norm_num) (by (rw [Int.floor_eq_iff]; norm_num))]
  norm_num [formatHMS]
  rw [fmt052, show ⌊(69/20 : ℚ) * 100 + 1/2⌋ = 345 from by (rw [Int.floor_eq_iff]; norm_num)]
  decide

/-- Helper: `format_swim_time 3661.2 = "1:1:01.20"`. -/
lemma fmt_d : format_swim_time (36612/10) = "1:1:01.20" := by
  rw [format_eval (36612/10) 61 (by norm_num) (by (rw [Int.floor_eq_iff]; norm_num))]
  norm_num [formatHMS]
  rw [fmt052, show ⌊(6/5 : ℚ) * 100 + 1/2⌋ = 120 from by (rw [Int.floor_eq_iff]; norm_num)]
  decide

/-- C5: for every x in {0, 23.45, 63.21, 123.45, 3661.2}, parsing the
formatted duration recovers x within 0.01 s; in this exact-arithmetic
model the round-trip is exact. -/
theorem C5_roundtrip :
    (∃ y, parse_swim_time (format_swim_time 0) = .ok y ∧ |y - 0| ≤ 1/100) ∧
    (∃ y, parse_swim_time (format_swim_time (2345/100)) = .ok y ∧ |y - 2345/100| ≤ 1/100) ∧
    (∃ y, parse_swim_time (format_swim_time (6321/100)) = .ok y ∧ |y - 6321/100| ≤ 1/100) ∧
    (∃ y, parse_swim_time (format_swim_time (12345/100)) = .ok y ∧ |y - 12345/100| ≤ 1/100) ∧
    (∃ y, parse_swim_time (format_swim_time (36612/10)) = .ok y ∧ |y - 36612/10| ≤ 1/100) := by
  refine ⟨⟨0, ?_, by norm_num⟩, ⟨2345/100, ?_, by norm_num⟩, ⟨6321/100, ?_, by norm_num⟩,
    ⟨12345/100, ?_, by norm_num⟩, ⟨36612/10, ?_, by norm_num⟩⟩
  · rw [show format_swim_time 0 = "---" from by rw [format_swim_time, if_pos le_rfl]]
    rw [parse_swim_time, if_pos (by decide)]
  · rw [fmt_a, parse_eval_one "23.45" "23.45" (2345/100) (by decide) (by decide)
      (by rw [pyFloat_eval "23.45" 23 45 2 (by decide)]; norm_num)]
  · rw [fmt_b, show (6321/100 : ℚ) = 1 * 60 + 321/100 from by norm_num]
    exact parse_eval_two "1:03.21" "1" "03.21" 1 (321/100) (by decide) (by decide)
      (by rw [pyFloat_eval "1" 1 0 0 (by decide)]; norm_num)
      (by rw [pyFloat_eval "03.21" 3 21 2 (by decide)]; norm_num)
  · rw [fmt_c, show (12345/100 : ℚ) = 2 * 60 + 345/100 from by norm_num]
    exact parse_eval_two "2:03.45" "2" "03.45" 2 (345/100) (by decide) (by decide)
      (by rw [pyFloat_eval "2" 2 0 0 (by decide)]; norm_num)
      (by rw [pyFloat_eval "03.45" 3 45 2 (by decide)]; norm_num)
  · rw [fmt_d, show (36612/10 : ℚ) = 1 * 3600 + 1 * 60 + 12/10 from by norm_num]
    exact parse_eval_three "1:1:01.20" "1" "1" "01.20" 1 1 (12/10) (by decide) (by decide)
      (by rw [pyFloat_eval "1" 1 0 0 (by decide)]; norm_num)
      (by rw [pyFloat_eval "1" 1 0 0 (by decide)]; norm_num)
      (by rw [pyFloat_eval "01.20" 1 20 2 (by decide)]; norm_num)

/-! ## Claim C6 -/

/-- Evaluation of `parse_swim_time` through a split of four or more
fields: only the first field is parsed. -/
lemma parse_eval_four (s p0 p1 p2 p3 : String) (rest : List String) (v : ℚ)
    (hs : ¬(s = "" ∨ s = "---")) (hsp : pySplit s ':' = p0 :: p1 :: p2 :: p3 :: rest)
    (hv : pyFloat p0 = some v) : parse_swim_time s = .ok v := by
  simp only [parse_swim_time, if_neg hs, hsp, List.headD, hv]

/-- C6 counterexample: the sentinel `"-"` does not parse to 0 — it raises
`ValueError` — and the four-field input `"1:2:3:x"` has the non-numeric
part `"x"` yet parses without error to 1. -/
theorem C6_counterexample :
    parse_swim_time "-" ≠ .ok 0 ∧
    parse_swim_time "-" = .error "ValueError" ∧
    pyFloat "x" = Option.none ∧
    parse_swim_time "1:2:3:x" = .ok 1 := by
  refine ⟨by decide, by decide, by decide, ?_⟩
  rw [parse_eval_four "1:2:3:x" "1" "2" "3" "x" [] 1 (by decide) (by decide)
    (by rw [pyFloat_eval "1" 1 0 0 (by decide)]; norm_num)]

/-- C6 (amended): the empty string and `"---"` parse to 0, while `"-"`
raises `ValueError`; for inputs splitting into at most three
colon-separated fields, any non-numeric field raises `ValueError`; for
four or more fields only the first field is parsed and the rest —
non-numeric or not — are silently ignored. -/
theorem C6_amended :
    parse_swim_time "" = .ok 0 ∧
    parse_swim_time "---" = .ok 0 ∧
    parse_swim_time "-" = .error "ValueError" ∧
    (∀ s h, ¬(s = "" ∨ s = "---") → pySplit s ':' = [h] →
      pyFloat h = Option.none → parse_swim_time s = .error "ValueError") ∧
    (∀ s m sec, ¬(s = "" ∨ s = "---") → pySplit s ':' = [m, sec] →
      (pyFloat m = Option.none ∨ pyFloat sec = Option.none) →
      parse_swim_time s = .error "ValueError") ∧
    (∀ s h m sec, ¬(s = "" ∨ s = "---") → pySplit s ':' = [h, m, sec] →
      (pyFloat h = Option.none ∨ pyFloat m = Option.none ∨ pyFloat sec = Option.none) →
      parse_swim_time s = .error "ValueError") ∧
    (∀ s p0 p1 p2 p3 rest v, ¬(s = "" ∨ s = "---") →
      pySplit s ':' = p0 :: p1 :: p2 :: p3 :: rest →
      pyFloat p0 = some v → parse_swim_time s = .ok v) := by
  refine ⟨by rw [parse_swim_time, if_pos (Or.inl rfl)],
    by rw [parse_swim_time, if_pos (Or.inr rfl)], by decide, ?_, ?_, ?_, ?_⟩
  · intro s h hs hsp hv
    simp only [parse_swim_time, if_neg hs, hsp, List.headD, hv]
  · intro s m sec hs hsp hv
    simp only [parse_swim_time, if_neg hs, hsp]
    rcases hv with hv | hv
    · rw [hv]
    · rw [hv]
      cases pyFloat m <;> rfl
  · intro s h m sec hs hsp hv
    simp only [parse_swim_time, if_neg hs, hsp]
    rcases hv with hv | hv | hv
    · rw [hv]
    · rw [hv]
      cases pyFloat h <;> rfl
    · rw [hv]
      cases pyFloat h <;> cases pyFloat m <;> rfl
  · intro s p0 p1 p2 p3 rest v hs hsp hv
    exact parse_eval_four s p0 p1 p2 p3 rest v hs hsp hv

/-- C6 witness: the amended universal clauses instantiated — `"1:x"` has
fields `["1", "x"]` with non-numeric `"x"` and raises. -/
theorem C6_witness :
    pySplit "1:x" ':' = ["1", "x"] ∧ pyFloat "x" = Option.none ∧
    parse_swim_time "1:x" = .error "ValueError" := by
  refine ⟨by decide, by decide, ?_⟩
  exact C6_amended.2.2.2.2.1 "1:x" "1" "x" (by decide) (by decide) (Or.inr (by decide))

/-! ## Claims C1, C2, C10: table resolution and degenerate inputs -/

/-- Every point system stored in `emptySystem` is the empty dict. -/
lemma emptySystem_lookup (k : ℤ) (v : GenderDict)
    (h : dictGet (pointSystems emptySystem) k = some v) : v = [] := by
  obtain ⟨p, hp, hv⟩ := dictGet_mem h
  subst hv
  simp only [pointSystems, emptySystem] at hp
  simp only [List.mem_cons, List.not_mem_nil, or_false] at hp
  rcases hp with h | h | h | h | h | h | h | h | h | h <;> subst h <;> rfl

/-- `emptySystem` never resolves a point system. -/
lemma resolvePointSystem_empty (pa : ℤ) :
    resolvePointSystem emptySystem pa = Option.none := by
  unfold resolvePointSystem
  cases hd : dictGet (pointSystems emptySystem) pa with
  | none => rfl
  | some v =>
      rw [emptySystem_lookup pa v hd]
      rfl

/-- The table lookup for `emptySystem` always takes the warning path. -/
lemma getPointTable_empty (ek : String) (age ema : Option ℤ) :
    getPointTable emptySystem ek age ema = .ok Option.none := by
  unfold getPointTable
  rw [resolvePointSystem_empty]

/-- A `None` table makes `calculate_points` return 0 before touching the
performance value. -/
lemma calc_table_none (s : ScoringSystem) (ek : String) (age ema : Option ℤ)
    (t : Perf) (h : getPointTable s ek age ema = .ok Option.none) :
    calculate_points s ek t age ema = .ok 0 := by
  simp only [calculate_points, h]

/-- C1 counterexample: with a non-empty age-10 point system that has no
`"Women's"` key, the unknown gender word makes `calculate_points` raise
`AttributeError` (`.get` on `None`) instead of returning 0. -/
theorem C1_counterexample :
    dictGet sys1.ps10 (genderWord "Women's 100 Free") = Option.none ∧
    calculate_points sys1 "Women's 100 Free" (.num 50) (some 10) Option.none =
      .error "AttributeError" ∧
    calculate_points sys1 "Women's 100 Free" (.num 50) (some 10) Option.none ≠ .ok 0 := by
  refine ⟨by decide, by decide, by decide⟩

/-- C1 (amended): `calculate_points` returns 0 without an exception when
every point system is empty (in particular for the claim's
`Women's 1600 Freestyle (LCM)` call), whenever the resolved table is
`None`, and when the gender word is present but the event descriptor is
unknown; the unknown-gender-word case instead raises `AttributeError`
(see the counterexample). -/
theorem C1_amended :
    (∀ ek t age ema, calculate_points emptySystem ek t age ema = .ok 0) ∧
    (calculate_points emptySystem "Women's 1600 Freestyle (LCM)" (.num 500)
      (some 10) Option.none = .ok 0) ∧
    (∀ s ek age ema t, getPointTable s ek age ema = .ok Option.none →
      calculate_points s ek t age ema = .ok 0) ∧
    (∀ s ek age ema t d ed,
      resolvePointSystem s (resolvePointAge age ema) = some d →
      dictGet d (genderWord ek) = some ed →
      dictGet ed (actualEvent ek) = Option.none →
      calculate_points s ek t age ema = .ok 0) := by
  refine ⟨fun ek t age ema => calc_table_none _ _ _ _ _ (getPointTable_empty ek age ema),
    calc_table_none _ _ _ _ _ (getPointTable_empty _ _ _), calc_table_none, ?_⟩
  intro s ek age ema t d ed hd hg he
  apply calc_table_none
  unfold getPointTable
  simp only [hd, hg, he]

/-- C1 witness: the hypothesis-bearing clauses instantiated at a concrete
system — `sys1` has a table for age 10 but no `200 Free` event, and the
known-gender unknown-event call returns 0. -/
theorem C1_witness :
    getPointTable sys1 "Men's 200 Free" (some 10) Option.none = .ok Option.none ∧
    calculate_points sys1 "Men's 200 Free" (.num 30) (some 10) Option.none = .ok 0 := by
  refine ⟨by decide, ?_⟩
  exact C1_amended.2.2.1 sys1 "Men's 200 Free" (some 10) Option.none (.num 30) (by decide)

/-- C2 counterexample: with every 6–14 bucket mapping `Men's 100 Free` to
`[(1, 1)]` and the 15-plus system mapping it to `[(2, 2)]`, an age of 3
resolves — through scoring age 3, which has no point system — to the
15-plus table `[(2, 2)]`, contradicting the claim that the 15+ bucket is
not used. -/
theorem C2_counterexample :
    resolvePointAge (some 3) Option.none = 3 ∧
    getPointTable sysA "Men's 100 Free" (some 3) Option.none = .ok (some [(2, 2)]) ∧
    ([(2, 2)] : PointTable) ≠ [(1, 1)] := by
  refine ⟨by decide, by decide, by decide⟩

/-- The keys of `point_systems` are exactly 6..15: key 3 misses. -/
lemma dictGet_pointSystems_three (s : ScoringSystem) :
    dictGet (pointSystems s) 3 = Option.none := by
  simp [dictGet, pointSystems, List.find?]

/-- Key 15 of `point_systems` is the 15-plus system. -/
lemma dictGet_pointSystems_fifteen (s : ScoringSystem) :
    dictGet (pointSystems s) 15 = some s.ps15plus := by
  simp [dictGet, pointSystems, List.find?]

/-- C2 (amended): the scoring age is the age itself when in [1, 14] and 15
otherwise; an absent age falls back to the event max age when present,
else 15.  Table selection then uses the point system stored for the
scoring age — buckets exist only for ages 6–14 and 15 — so an age of 3
yields scoring age 3, finds no bucket, and falls back to the 15-plus
system exactly as an age of 15 does. -/
theorem C2_amended :
    (∀ a ema, 0 < a → a < 15 → resolvePointAge (some a) ema = a) ∧
    (∀ a ema, a ≤ 0 ∨ 15 ≤ a → resolvePointAge (some a) ema = 15) ∧
    (∀ m, resolvePointAge Option.none (some m) = m) ∧
    (resolvePointAge Option.none Option.none = 15) ∧
    (∀ s ek ema, getPointTable s ek (some 3) ema =
      getPointTable s ek (some 15) ema) := by
  refine ⟨fun a ema h1 h2 => by simp [resolvePointAge, h1, h2],
    fun a ema h => ?_, fun m => rfl, rfl, fun s ek ema => ?_⟩
  · have hcond : ¬(0 < a ∧ a < 15) := by omega
    simp [resolvePointAge, hcond]
  · have h3 : resolvePointAge (some 3) ema = 3 := by simp [resolvePointAge]
    have h15 : resolvePointAge (some 15) ema = 15 := by simp [resolvePointAge]
    unfold getPointTable
    rw [h3, h15]
    unfold resolvePointSystem
    rw [dictGet_pointSystems_three, dictGet_pointSystems_fifteen]
    by_cases he : s.ps15plus.isEmpty <;> simp [he]

/-- C2 witness: the clamp clauses instantiated — age 7 keeps scoring age
7, age 20 and age 0 map to 15, and the age-3/age-15 table agreement at a
concrete system. -/
theorem C2_witness :
    resolvePointAge (some 7) Option.none = 7 ∧
    resolvePointAge (some 20) Option.none = 15 ∧
    resolvePointAge (some 0) Option.none = 15 ∧
    getPointTable sysA "Men's 100 Free" (some 3) Option.none =
      getPointTable sysA "Men's 100 Free" (some 15) Option.none := by
  exact ⟨C2_amended.1 7 Option.none (by norm_num) (by norm_num),
    C2_amended.2.1 20 Option.none (Or.inr (by norm_num)),
    C2_amended.2.1 0 Option.none (Or.inl le_rfl),
    C2_amended.2.2.2.2 sysA "Men's 100 Free" Option.none⟩

/-- C10: whenever a point table exists for the event key, a missing, zero
or negative performance value earns 0 points — `None`, non-positive
numbers, and strings parsing to a non-positive number of seconds all
return 0; likewise `get_points` returns 0 for any non-positive query. -/
theorem C10_nonpositive :
    (∀ s ek age ema tbl, getPointTable s ek age ema = .ok (some tbl) →
      calculate_points s ek .none age ema = .ok 0 ∧
      (∀ q, q ≤ 0 → calculate_points s ek (.num q) age ema = .ok 0) ∧
      (∀ st v, parse_swim_time st = .ok v → v ≤ 0 →
        calculate_points s ek (.str st) age ema = .ok 0)) ∧
    (∀ data g ek v, v ≤ 0 → get_points data g ek v = 0) := by
  constructor
  · intro s ek age ema tbl h
    refine ⟨by simp only [calculate_points, h], fun q hq => ?_, fun st v hst hv => ?_⟩
    · simp only [calculate_points, h, if_pos hq]
    · simp only [calculate_points, h, hst, if_pos hv]
  · intro data g ek v hv
    rw [get_points, if_pos hv]

/-! ## Sorted-table infrastructure -/

/-- A point table listed in strictly increasing time order (the shape
`sorted(dict.items())` produces, since dict keys are unique). -/
def StrictTimes (l : List (ℚ × ℚ)) : Prop :=
  List.Chain' (fun a b => a.1 < b.1) l

/-- Point values non-increasing along the table (faster time, more
points): the shape of a race scoring table. -/
def PtsNonInc (l : List (ℚ × ℚ)) : Prop :=
  List.Chain' (fun a b => b.2 ≤ a.2) l

/-- Point values non-decreasing along the table (larger value, more
points): the shape of a score-based table. -/
def PtsNonDec (l : List (ℚ × ℚ)) : Prop :=
  List.Chain' (fun a b => a.2 ≤ b.2) l

/-- `sorted` leaves a strictly time-sorted table unchanged. -/
lemma sortPairs_eq_self {l : List (ℚ × ℚ)} (h : StrictTimes l) :
    sortPairs l = l := by
  apply List.Sorted.insertionSort_eq
  haveI : IsTrans (ℚ × ℚ) (fun a b : ℚ × ℚ => a.1 < b.1) :=
    ⟨fun a b c h1 h2 => lt_trans h1 h2⟩
  have hp : List.Pairwise (fun a b : ℚ × ℚ => a.1 < b.1) l :=
    List.chain'_iff_pairwise.mp h
  exact hp.imp (fun hab => Or.inl hab)

/-- `times[-1]` of a non-empty table. -/
lemma mapFst_getLastD (p : ℚ × ℚ) (rest : List (ℚ × ℚ)) :
    (((p :: rest).map Prod.fst).getLastD 0) =
      ((p :: rest).getLast (List.cons_ne_nil p rest)).1 := by
  rw [List.getLastD_eq_getLast?, List.getLast?_map,
    List.getLast?_eq_getLast (p :: rest) (List.cons_ne_nil p rest)]
  rfl

/-- `points[-1]` of a non-empty table. -/
lemma mapSnd_getLastD (p : ℚ × ℚ) (rest : List (ℚ × ℚ)) :
    (((p :: rest).map Prod.snd).getLastD 0) =
      ((p :: rest).getLast (List.cons_ne_nil p rest)).2 := by
  rw [List.getLastD_eq_getLast?, List.getLast?_map,
    List.getLast?_eq_getLast (p :: rest) (List.cons_ne_nil p rest)]
  rfl

/-- In a strictly time-sorted table the first time bounds the last. -/
lemma strict_head_le_getLast :
    ∀ {rest : List (ℚ × ℚ)} {p : ℚ × ℚ}, StrictTimes (p :: rest) →
      p.1 ≤ ((p :: rest).getLast (List.cons_ne_nil p rest)).1 := by
  intro rest
  induction rest with
  | nil => intro p _; exact le_refl _
  | cons q t ih =>
      intro p h
      rw [List.getLast_cons_cons]
      rcases (List.chain'_cons.mp h) with ⟨hpq, ht⟩
      exact le_trans (le_of_lt hpq) (ih ht)

/-- With at least two rows the first time is strictly below the last. -/
lemma strict_head_lt_getLast {p q : ℚ × ℚ} {t : List (ℚ × ℚ)}
    (h : StrictTimes (p :: q :: t)) :
    p.1 < ((p :: q :: t).getLast (List.cons_ne_nil p (q :: t))).1 := by
  rw [List.getLast_cons_cons]
  rcases (List.chain'_cons.mp h) with ⟨hpq, ht⟩
  exact lt_of_lt_of_le hpq (strict_head_le_getLast ht)

/-- In a non-increasing table the last points bound the first. -/
lemma ptsNonInc_getLast_le_head :
    ∀ {rest : List (ℚ × ℚ)} {p : ℚ × ℚ}, PtsNonInc (p :: rest) →
      ((p :: rest).getLast (List.cons_ne_nil p rest)).2 ≤ p.2 := by
  intro rest
  induction rest with
  | nil => intro p _; exact le_refl _
  | cons q t ih =>
      intro p h
      rw [List.getLast_cons_cons]
      rcases (List.chain'_cons.mp h) with ⟨hpq, ht⟩
      exact le_trans (ih ht) hpq

/-- Branch-level evaluation of `get_points` once the event table is known
and strictly sorted: guard, clamp, penalty and interpolation regions. -/
lemma get_points_eval (data : GenderDict) (g ek : String) (p : ℚ × ℚ)
    (rest : List (ℚ × ℚ)) (v : ℚ)
    (hl : lookupEventData data g ek = p :: rest)
    (hs : StrictTimes (p :: rest)) (hv : 0 < v) :
    get_points data g ek v =
      (if v ≤ p.1 then p.2
       else if ((p :: rest).getLast (List.cons_ne_nil p rest)).1 ≤ v then
         max 0 (((p :: rest).getLast (List.cons_ne_nil p rest)).2
           - (v - ((p :: rest).getLast (List.cons_ne_nil p rest)).1) * 10)
       else interpLinear (p :: rest) v) := by
  rw [get_points, if_neg (not_le.mpr hv), hl, sortPairs_eq_self hs,
    if_neg (by simp), mapFst_getLastD, mapSnd_getLastD]
  simp only [List.map_cons, List.headD_cons]

/-! ## Claims C3 and C4: clamp and penalty policy of `get_points` -/

/-- C3: under the clamp policy, a positive query strictly below the
smallest tabled time returns exactly the points of the smallest tabled
time. -/
theorem C3_clamp (data : GenderDict) (g ek : String) (p : ℚ × ℚ)
    (rest : List (ℚ × ℚ)) (v : ℚ)
    (hl : lookupEventData data g ek = p :: rest)
    (hs : StrictTimes (p :: rest))
    (hv0 : 0 < v) (hv : v < p.1) :
    get_points data g ek v = p.2 := by
  rw [get_points_eval data g ek p rest v hl hs hv0, if_pos (le_of_lt hv)]

/-- The claim's literal table `{41.23: 1000, 43.56: 950}`. -/
def tableC : PointTable := [(4123/100, 1000), (4356/100, 950)]

/-- A point-system dict holding `tableC` under `Men's`/`100 Freestyle (SCY)`. -/
def dataC : GenderDict := [("Men's", [("100 Freestyle (SCY)", tableC)])]

/-- `tableC` is strictly sorted by time. -/
lemma tableC_sorted : StrictTimes ((4123/100, 1000) :: [((4356:ℚ)/100, (950:ℚ))]) := by
  unfold StrictTimes
  rw [List.chain'_cons]
  exact ⟨by norm_num, List.chain'_singleton _⟩

/-- C3 witness: the literal table queried at 40.0 returns 1000. -/
theorem C3_witness :
    lookupEventData dataC "Men's" "100 Freestyle (SCY)" = tableC ∧
    (0:ℚ) < 40 ∧ (40:ℚ) < 4123/100 ∧
    get_points dataC "Men's" "100 Freestyle (SCY)" 40 = 1000 := by
  refine ⟨rfl, by norm_num, by norm_num, ?_⟩
  have h := C3_clamp dataC "Men's" "100 Freestyle (SCY)" (4123/100, 1000)
    [(4356/100, 950)] 40 rfl tableC_sorted (by norm_num) (by norm_num)
  simpa using h

/-- C4: under the clamp policy, a query at or beyond the largest tabled
time `v_max` (points `p_max`) returns `max 0 (p_max - 10 * (v - v_max))`,
for tables with positive times and nonnegative points. -/
theorem C4_penalty (data : GenderDict) (g ek : String) (p : ℚ × ℚ)
    (rest : List (ℚ × ℚ)) (v : ℚ)
    (hl : lookupEventData data g ek = p :: rest)
    (hs : StrictTimes (p :: rest))
    (hpos : ∀ q ∈ p :: rest, 0 < q.1)
    (hnn : ∀ q ∈ p :: rest, 0 ≤ q.2)
    (hv : ((p :: rest).getLast (List.cons_ne_nil p rest)).1 ≤ v) :
    get_points data g ek v =
      max 0 (((p :: rest).getLast (List.cons_ne_nil p rest)).2
        - (v - ((p :: rest).getLast (List.cons_ne_nil p rest)).1) * 10) := by
  have hv0 : 0 < v :=
    lt_of_lt_of_le (hpos _ (List.getLast_mem (List.cons_ne_nil p rest))) hv
  rw [get_points_eval data g ek p rest v hl hs hv0]
  cases rest with
  | nil =>
      simp only [List.getLast_singleton] at hv ⊢
      by_cases hvp : v ≤ p.1
      · have hveq : v = p.1 := le_antisymm hvp hv
        rw [if_pos hvp, hveq]
        simp [max_eq_right (hnn p (List.mem_cons_self p []))]
      · rw [if_neg hvp, if_pos hv]
  | cons q t =>
      have hplt : p.1 < ((p :: q :: t).getLast (List.cons_ne_nil p (q :: t))).1 :=
        strict_head_lt_getLast hs
      rw [if_neg (not_le.mpr (lt_of_lt_of_le hplt hv)), if_pos hv]

/-- C4 witness: the literal table queried 1.0 s beyond 43.56 returns 940,
and 200 s beyond returns 0. -/
theorem C4_witness :
    lookupEventData dataC "Men's" "100 Freestyle (SCY)" = tableC ∧
    get_points dataC "Men's" "100 Freestyle (SCY)" (4456/100) = 940 ∧
    get_points dataC "Men's" "100 Freestyle (SCY)" (24356/100) = 0 := by
  have hlast : (((4123/100, 1000) :: [((4356:ℚ)/100, (950:ℚ))]).getLast
      (List.cons_ne_nil _ _)) = (4356/100, 950) := rfl
  have h1 := C4_penalty dataC "Men's" "100 Freestyle (SCY)" (4123/100, 1000)
    [(4356/100, 950)] (4456/100) rfl tableC_sorted
    (by intro q hq
        simp only [List.mem_cons, List.not_mem_nil, or_false] at hq
        rcases hq with h | h <;> subst h <;> norm_num)
    (by intro q hq
        simp only [List.mem_cons, List.not_mem_nil, or_false] at hq
        rcases hq with h | h <;> subst h <;> norm_num)
    (by rw [hlast]; norm_num)
  have h2 := C4_penalty dataC "Men's" "100 Freestyle (SCY)" (4123/100, 1000)
    [(4356/100, 950)] (24356/100) rfl tableC_sorted
    (by intro q hq
        simp only [List.mem_cons, List.not_mem_nil, or_false] at hq
        rcases hq with h | h <;> subst h <;> norm_num)
    (by intro q hq
        simp only [List.mem_cons, List.not_mem_nil, or_false] at hq
        rcases hq with h | h <;> subst h <;> norm_num)
    (by rw [hlast]; norm_num)
  rw [hlast] at h1 h2
  refine ⟨rfl, ?_, ?_⟩
  · rw [h1]; norm_num
  · rw [h2]; norm_num

/-! ## Claim C7: column identification order -/

/-- A header that takes the first-name branch. -/
def firstNameRole (h : String) : Prop := pyStrip (pyLower h) ∈ firstNameSyns

/-- A header that takes the last-name branch (first branch missed). -/
def lastNameRole (h : String) : Prop :=
  pyStrip (pyLower h) ∉ firstNameSyns ∧ pyStrip (pyLower h) ∈ lastNameSyns

/-- A header that takes the full-name branch. -/
def fullNameRole (h : String) : Prop :=
  pyStrip (pyLower h) ∉ firstNameSyns ∧ pyStrip (pyLower h) ∉ lastNameSyns ∧
    pyStrip (pyLower h) ∈ fullNameSyns

/-- A header that takes the age branch. -/
def ageRole (h : String) : Prop :=
  pyStrip (pyLower h) ∉ firstNameSyns ∧ pyStrip (pyLower h) ∉ lastNameSyns ∧
    pyStrip (pyLower h) ∉ fullNameSyns ∧ pyStrip (pyLower h) ∈ ageSyns

/-- A header that takes the team branch. -/
def teamRole (h : String) : Prop :=
  pyStrip (pyLower h) ∉ firstNameSyns ∧ pyStrip (pyLower h) ∉ lastNameSyns ∧
    pyStrip (pyLower h) ∉ fullNameSyns ∧ pyStrip (pyLower h) ∉ ageSyns ∧
    pyStrip (pyLower h) ∈ teamSyns

/-- A header that takes the gender branch. -/
def genderRole (h : String) : Prop :=
  pyStrip (pyLower h) ∉ firstNameSyns ∧ pyStrip (pyLower h) ∉ lastNameSyns ∧
    pyStrip (pyLower h) ∉ fullNameSyns ∧ pyStrip (pyLower h) ∉ ageSyns ∧
    pyStrip (pyLower h) ∉ teamSyns ∧
    (strContains (pyStrip (pyLower h)) "gender" = true ∨ pyStrip (pyLower h) ∈ genderSyns)

/-- A header that takes the event branch. -/
def eventRole (h : String) : Prop :=
  pyStrip (pyLower h) ∉ firstNameSyns ∧ pyStrip (pyLower h) ∉ lastNameSyns ∧
    pyStrip (pyLower h) ∉ fullNameSyns ∧ pyStrip (pyLower h) ∉ ageSyns ∧
    pyStrip (pyLower h) ∉ teamSyns ∧
    ¬(strContains (pyStrip (pyLower h)) "gender" = true ∨ pyStrip (pyLower h) ∈ genderSyns) ∧
    eventCond h

instance : DecidablePred firstNameRole := fun h => by unfold firstNameRole; infer_instance

instance : DecidablePred lastNameRole := fun h => by unfold lastNameRole; infer_instance

instance : DecidablePred fullNameRole := fun h => by unfold fullNameRole; infer_instance

instance : DecidablePred ageRole := fun h => by unfold ageRole; infer_instance

instance : DecidablePred teamRole := fun h => by unfold teamRole; infer_instance

instance : DecidablePred genderRole := fun h => by unfold genderRole; infer_instance

instance : DecidablePred eventRole := fun h => by unfold eventRole; infer_instance

/-- `getLast?` of a cons as a right-biased choice. -/
lemma getLast?_cons_or {α : Type} (x : α) (xs : List α) :
    (x :: xs).getLast? = xs.getLast?.or (some x) := by
  cases xs with
  | nil => rfl
  | cons y ys =>
      rw [List.getLast?_cons_cons,
        List.getLast?_eq_getLast (y :: ys) (List.cons_ne_nil y ys)]
      rfl

/-- Generic last-match characterization of a fold over `classifyStep` for
a single-valued role field. -/
lemma foldl_last_wins (f : ColumnMap → Option ℕ) (P : String → Prop) [DecidablePred P]
    (hpos : ∀ cm i h, P h → f (classifyStep cm i h) = some i)
    (hneg : ∀ cm i h, ¬P h → f (classifyStep cm i h) = f cm) :
    ∀ (l : List (ℕ × String)) (cm : ColumnMap),
      f (l.foldl (fun cm p => classifyStep cm p.1 p.2) cm)
        = (((l.filter (fun p => decide (P p.2))).map Prod.fst).getLast?).or (f cm) := by
  intro l
  induction l with
  | nil => intro cm; simp
  | cons a t ih =>
      intro cm
      rw [List.foldl_cons, ih (classifyStep cm a.1 a.2)]
      by_cases hP : P a.2
      · rw [hpos cm a.1 a.2 hP, List.filter_cons_of_pos (by simpa using hP),
          List.map_cons, getLast?_cons_or, Option.or_assoc, Option.or_some]
      · rw [hneg cm a.1 a.2 hP, List.filter_cons_of_neg (by simpa using hP)]

/-- Events accumulate left to right along the fold. -/
lemma foldl_events
    (hpos : ∀ cm i h, eventRole h →
      (classifyStep cm i h).events = cm.events ++ [(h, i)])
    (hneg : ∀ cm i h, ¬eventRole h → (classifyStep cm i h).events = cm.events) :
    ∀ (l : List (ℕ × String)) (cm : ColumnMap),
      (l.foldl (fun cm p => classifyStep cm p.1 p.2) cm).events
        = cm.events ++ ((l.filter (fun p => decide (eventRole p.2))).map (fun p => (p.2, p.1))) := by
  intro l
  induction l with
  | nil => intro cm; simp
  | cons a t ih =>
      intro cm
      rw [List.foldl_cons, ih (classifyStep cm a.1 a.2)]
      by_cases hP : eventRole a.2
      · rw [hpos cm a.1 a.2 hP, List.filter_cons_of_pos (by simpa using hP),
          List.map_cons, List.append_assoc]
        rfl
      · rw [hneg cm a.1 a.2 hP, List.filter_cons_of_neg (by simpa using hP)]

/-- The last column index with a given role among enumerated headers. -/
def lastMatchIdx (P : String → Prop) [DecidablePred P] (headers : List String) : Option ℕ :=
  (((headers.enum).filter (fun p => decide (P p.2))).map Prod.fst).getLast?

/-- The event columns in original left-to-right order. -/
def eventColumns (headers : List String) : List (String × ℕ) :=
  ((headers.enum).filter (fun p => decide (eventRole p.2))).map (fun p => (p.2, p.1))

/-- Step lemma: a first-name header records its index. -/
lemma step_first_pos (cm : ColumnMap) (i : ℕ) (h : String) (hP : firstNameRole h) :
    (classifyStep cm i h).first_name = some i := by
  unfold firstNameRole at hP
  simp only [classifyStep]
  rw [if_pos hP]

/-- Step lemma: a non-first-name header leaves the field alone. -/
lemma step_first_neg (cm : ColumnMap) (i : ℕ) (h : String) (hP : ¬firstNameRole h) :
    (classifyStep cm i h).first_name = cm.first_name := by
  simp only [classifyStep]
  split_ifs <;> simp_all [firstNameRole]

/-- Step lemma: a last-name header records its index. -/
lemma step_last_pos (cm : ColumnMap) (i : ℕ) (h : String) (hP : lastNameRole h) :
    (classifyStep cm i h).last_name = some i := by
  unfold lastNameRole at hP
  simp only [classifyStep]
  rw [if_neg hP.1, if_pos hP.2]

/-- Step lemma: a non-last-name header leaves the field alone. -/
lemma step_last_neg (cm : ColumnMap) (i : ℕ) (h : String) (hP : ¬lastNameRole h) :
    (classifyStep cm i h).last_name = cm.last_name := by
  simp only [classifyStep]
  split_ifs <;> simp_all [lastNameRole]

/-- Step lemma: an age header records its index. -/
lemma step_age_pos (cm : ColumnMap) (i : ℕ) (h : String) (hP : ageRole h) :
    (classifyStep cm i h).age = some i := by
  unfold ageRole at hP
  simp only [classifyStep]
  rw [if_neg hP.1, if_neg hP.2.1, if_neg hP.2.2.1, if_pos hP.2.2.2]

/-- Step lemma: a non-age header leaves the field alone. -/
lemma step_age_neg (cm : ColumnMap) (i : ℕ) (h : String) (hP : ¬ageRole h) :
    (classifyStep cm i h).age = cm.age := by
  simp only [classifyStep]
  split_ifs <;> simp_all [ageRole]

/-- Step lemma: a team header records its index. -/
lemma step_team_pos (cm : ColumnMap) (i : ℕ) (h : String) (hP : teamRole h) :
    (classifyStep cm i h).team = some i := by
  unfold teamRole at hP
  simp only [classifyStep]
  rw [if_neg hP.1, if_neg hP.2.1, if_neg hP.2.2.1, if_neg hP.2.2.2.1, if_pos hP.2.2.2.2]

/-- Step lemma: a non-team header leaves the field alone. -/
lemma step_team_neg (cm : ColumnMap) (i : ℕ) (h : String) (hP : ¬teamRole h) :
    (classifyStep cm i h).team = cm.team := by
  simp only [classifyStep]
  split_ifs <;> simp_all [teamRole]

/-- Step lemma: a gender header records its index. -/
lemma step_gender_pos (cm : ColumnMap) (i : ℕ) (h : String) (hP : genderRole h) :
    (classifyStep cm i h).gender = some i := by
  unfold genderRole at hP
  simp only [classifyStep]
  rw [if_neg hP.1, if_neg hP.2.1, if_neg hP.2.2.1, if_neg hP.2.2.2.1,
    if_neg hP.2.2.2.2.1, if_pos hP.2.2.2.2.2]

/-- Step lemma: a non-gender header leaves the field alone. -/
lemma step_gender_neg (cm : ColumnMap) (i : ℕ) (h : String) (hP : ¬genderRole h) :
    (classifyStep cm i h).gender = cm.gender := by
  simp only [classifyStep]
  split_ifs <;> simp_all [genderRole]

/-- Step lemma: an event header is appended with its original label. -/
lemma step_event_pos (cm : ColumnMap) (i : ℕ) (h : String) (hP : eventRole h) :
    (classifyStep cm i h).events = cm.events ++ [(h, i)] := by
  unfold eventRole at hP
  simp only [classifyStep]
  rw [if_neg hP.1, if_neg hP.2.1, if_neg hP.2.2.1, if_neg hP.2.2.2.1,
    if_neg hP.2.2.2.2.1, if_neg hP.2.2.2.2.2.1, if_pos hP.2.2.2.2.2.2]

/-- Step lemma: a non-event header leaves the list alone. -/
lemma step_event_neg (cm : ColumnMap) (i : ℕ) (h : String) (hP : ¬eventRole h) :
    (classifyStep cm i h).events = cm.events := by
  simp only [classifyStep]
  split_ifs <;> simp_all [eventRole]

/-- C7 counterexample: with the header row `["Age", "Athlete Age"]`, both
headers match the age role but the recorded column is index 1 — the last
matching header, not the first. -/
theorem C7_counterexample :
    (identify_columns ["Age", "Athlete Age"]).age = some 1 ∧
    (identify_columns ["Age", "Athlete Age"]).age ≠ some 0 := by
  exact ⟨by decide, by decide⟩

/-- C7 (amended): for every header row, each single-valued role records
the LAST header taking that role's branch (dict assignment overwrites
earlier matches; the full-name role is additionally guarded by the absence
of split-name columns and is excluded here); the event columns list
preserves the original left-to-right order of the event headers. -/
theorem C7_amended :
    (∀ headers, (identify_columns headers).first_name = lastMatchIdx firstNameRole headers) ∧
    (∀ headers, (identify_columns headers).last_name = lastMatchIdx lastNameRole headers) ∧
    (∀ headers, (identify_columns headers).age = lastMatchIdx ageRole headers) ∧
    (∀ headers, (identify_columns headers).team = lastMatchIdx teamRole headers) ∧
    (∀ headers, (identify_columns headers).gender = lastMatchIdx genderRole headers) ∧
    (∀ headers, (identify_columns headers).events = eventColumns headers) := by
  refine ⟨fun headers => ?_, fun headers => ?_, fun headers => ?_, fun headers => ?_,
    fun headers => ?_, fun headers => ?_⟩
  · rw [identify_columns, foldl_last_wins (fun cm => cm.first_name) firstNameRole
      step_first_pos step_first_neg headers.enum {}]
    exact Option.or_none
  · rw [identify_columns, foldl_last_wins (fun cm => cm.last_name) lastNameRole
      step_last_pos step_last_neg headers.enum {}]
    exact Option.or_none
  · rw [identify_columns, foldl_last_wins (fun cm => cm.age) ageRole
      step_age_pos step_age_neg headers.enum {}]
    exact Option.or_none
  · rw [identify_columns, foldl_last_wins (fun cm => cm.team) teamRole
      step_team_pos step_team_neg headers.enum {}]
    exact Option.or_none
  · rw [identify_columns, foldl_last_wins (fun cm => cm.gender) genderRole
      step_gender_pos step_gender_neg headers.enum {}]
    exact Option.or_none
  · rw [identify_columns, foldl_events step_event_pos step_event_neg headers.enum {}]
    rfl

/-! ## Claim C9: monotonicity of the two scoring engines -/

/-- A segment with left time below right time and non-increasing points is
non-increasing. -/
lemma interpSeg_antitone {p q : ℚ × ℚ} (hx : p.1 < q.1) (hy : q.2 ≤ p.2)
    {x y : ℚ} (h : x ≤ y) : interpSeg p q y ≤ interpSeg p q x := by
  have hd : (0:ℚ) < q.1 - p.1 := sub_pos.mpr hx
  have hEq : interpSeg p q x - interpSeg p q y = (p.2 - q.2) * (y - x) / (q.1 - p.1) := by
    unfold interpSeg
    field_simp
    ring
  have hnum : 0 ≤ (p.2 - q.2) * (y - x) := mul_nonneg (by linarith) (by linarith)
  have hq := div_nonneg hnum (le_of_lt hd)
  linarith

/-- A segment with left time below right time and non-decreasing points is
non-decreasing. -/
lemma interpSeg_monotone {p q : ℚ × ℚ} (hx : p.1 < q.1) (hy : p.2 ≤ q.2)
    {x y : ℚ} (h : x ≤ y) : interpSeg p q x ≤ interpSeg p q y := by
  have hd : (0:ℚ) < q.1 - p.1 := sub_pos.mpr hx
  have hEq : interpSeg p q y - interpSeg p q x = (q.2 - p.2) * (y - x) / (q.1 - p.1) := by
    unfold interpSeg
    field_simp
    ring
  have hnum : 0 ≤ (q.2 - p.2) * (y - x) := mul_nonneg (by linarith) (by linarith)
  have hq := div_nonneg hnum (le_of_lt hd)
  linarith

/-- A segment passes through its left node. -/
lemma interpSeg_left (p q : ℚ × ℚ) : interpSeg p q p.1 = p.2 := by
  unfold interpSeg
  simp

/-- A segment passes through its right node. -/
lemma interpSeg_right {p q : ℚ × ℚ} (hx : p.1 < q.1) : interpSeg p q q.1 = q.2 := by
  unfold interpSeg
  have hne : q.1 - p.1 ≠ 0 := ne_of_gt (sub_pos.mpr hx)
  rw [mul_div_assoc, div_self hne, mul_one]
  ring

/-- The interpolant passes through the first node. -/
lemma interpLinear_at_head (l : List (ℚ × ℚ)) (p q : ℚ × ℚ)
    (hs : StrictTimes (p :: q :: l)) : interpLinear (p :: q :: l) p.1 = p.2 := by
  cases l with
  | nil => exact interpSeg_left p q
  | cons r t =>
      have hpq : p.1 < q.1 := (List.chain'_cons.mp hs).1
      simp only [interpLinear, if_pos (le_of_lt hpq)]
      exact interpSeg_left p q

/-- The interpolant passes through the last node. -/
lemma interpLinear_at_getLast :
    ∀ (l : List (ℚ × ℚ)) (p q : ℚ × ℚ), StrictTimes (p :: q :: l) →
      interpLinear (p :: q :: l) (((p :: q :: l).getLast (List.cons_ne_nil p (q :: l))).1)
        = ((p :: q :: l).getLast (List.cons_ne_nil p (q :: l))).2 := by
  intro l
  induction l with
  | nil =>
      intro p q hs
      have hpq : p.1 < q.1 := (List.chain'_cons.mp hs).1
      simp only [List.getLast_cons_cons, List.getLast_singleton]
      exact interpSeg_right hpq
  | cons r t ih =>
      intro p q hs
      have hpq : p.1 < q.1 := (List.chain'_cons.mp hs).1
      have hs' : StrictTimes (q :: r :: t) := (List.chain'_cons.mp hs).2
      have hql : q.1 < ((q :: r :: t).getLast (List.cons_ne_nil q (r :: t))).1 :=
        strict_head_lt_getLast hs'
      rw [List.getLast_cons_cons]
      simp only [interpLinear, if_neg (not_le.mpr hql)]
      exact ih q r hs'

/-- Piecewise-linear interpolation with extrapolation is globally
non-increasing over a strictly time-sorted table with non-increasing
points. -/
lemma interpLinear_antitone :
    ∀ (l : List (ℚ × ℚ)), StrictTimes l → PtsNonInc l →
      ∀ x y : ℚ, x ≤ y → interpLinear l y ≤ interpLinear l x := by
  intro l
  induction l with
  | nil => intro _ _ x y _; simp [interpLinear]
  | cons p l ih =>
      cases l with
      | nil => intro _ _ x y _; simp [interpLinear]
      | cons q t =>
          intro hs hm x y hxy
          have hpq : p.1 < q.1 := (List.chain'_cons.mp hs).1
          have hy2 : q.2 ≤ p.2 := (List.chain'_cons.mp hm).1
          have hs' : StrictTimes (q :: t) := (List.chain'_cons.mp hs).2
          have hm' : PtsNonInc (q :: t) := (List.chain'_cons.mp hm).2
          cases t with
          | nil =>
              simp only [interpLinear]
              exact interpSeg_antitone hpq hy2 hxy
          | cons r t2 =>
              simp only [interpLinear]
              by_cases hyq : y ≤ q.1
              · rw [if_pos hyq, if_pos (le_trans hxy hyq)]
                exact interpSeg_antitone hpq hy2 hxy
              · rw [if_neg hyq]
                by_cases hxq : x ≤ q.1
                · rw [if_pos hxq]
                  have h1 : interpSeg p q q.1 ≤ interpSeg p q x :=
                    interpSeg_antitone hpq hy2 hxq
                  rw [interpSeg_right hpq] at h1
                  have h2 : interpLinear (q :: r :: t2) y ≤ interpLinear (q :: r :: t2) q.1 :=
                    ih hs' hm' q.1 y (le_of_lt (not_le.mp hyq))
                  rw [interpLinear_at_head t2 q r hs'] at h2
                  exact le_trans h2 h1
                · rw [if_neg hxq]
                  exact ih hs' hm' x y hxy

/-- Piecewise-linear interpolation with extrapolation is globally
non-decreasing over a strictly time-sorted table with non-decreasing
points. -/
lemma interpLinear_monotone :
    ∀ (l : List (ℚ × ℚ)), StrictTimes l → PtsNonDec l →
      ∀ x y : ℚ, x ≤ y → interpLinear l x ≤ interpLinear l y := by
  intro l
  induction l with
  | nil => intro _ _ x y _; simp [interpLinear]
  | cons p l ih =>
      cases l with
      | nil => intro _ _ x y _; simp [interpLinear]
      | cons q t =>
          intro hs hm x y hxy
          have hpq : p.1 < q.1 := (List.chain'_cons.mp hs).1
          have hy2 : p.2 ≤ q.2 := (List.chain'_cons.mp hm).1
          have hs' : StrictTimes (q :: t) := (List.chain'_cons.mp hs).2
          have hm' : PtsNonDec (q :: t) := (List.chain'_cons.mp hm).2
          cases t with
          | nil =>
              simp only [interpLinear]
              exact interpSeg_monotone hpq hy2 hxy
          | cons r t2 =>
              simp only [interpLinear]
              by_cases hyq : y ≤ q.1
              · rw [if_pos hyq, if_pos (le_trans hxy hyq)]
                exact interpSeg_monotone hpq hy2 hxy
              · rw [if_neg hyq]
                by_cases hxq : x ≤ q.1
                · rw [if_pos hxq]
                  have h1 : interpSeg p q x ≤ interpSeg p q q.1 :=
                    interpSeg_monotone hpq hy2 hxq
                  rw [interpSeg_right hpq] at h1
                  have h2 : interpLinear (q :: r :: t2) q.1 ≤ interpLinear (q :: r :: t2) y :=
                    ih hs' hm' q.1 y (le_of_lt (not_le.mp hyq))
                  rw [interpLinear_at_head t2 q r hs'] at h2
                  exact le_trans h1 h2
                · rw [if_neg hxq]
                  exact ih hs' hm' x y hxy

/-- Evaluation of `calculate_points` on a numeric positive time against a
resolved, strictly sorted table of at least two rows. -/
lemma calc_eval (s : ScoringSystem) (ek : String) (age ema : Option ℤ)
    (tbl : PointTable) (t : ℚ)
    (h : getPointTable s ek age ema = .ok (some tbl))
    (hs : StrictTimes tbl) (hlen : 2 ≤ tbl.length) (ht : 0 < t) :
    calculate_points s ek (.num t) age ema = .ok (max 0 (interpLinear tbl t)) := by
  simp only [calculate_points, h]
  rw [if_neg (not_le.mpr ht), sortPairs_eq_self hs, if_neg (by omega)]
  by_cases hsc : 0 < interpLinear tbl t
  · rw [if_pos hsc, max_eq_right (le_of_lt hsc)]
  · rw [if_neg hsc, max_eq_left (le_of_not_lt hsc)]

/-- `get_points` is non-increasing in the query over a strictly sorted,
non-increasing, nonnegative table, for positive queries. -/
lemma get_points_mono (data : GenderDict) (g ek : String) (p : ℚ × ℚ)
    (rest : List (ℚ × ℚ)) (t1 t2 : ℚ)
    (hl : lookupEventData data g ek = p :: rest)
    (hs : StrictTimes (p :: rest)) (hm : PtsNonInc (p :: rest))
    (hnn : ∀ q ∈ p :: rest, 0 ≤ q.2)
    (h1 : 0 < t1) (h12 : t1 ≤ t2) :
    get_points data g ek t2 ≤ get_points data g ek t1 := by
  have h2 : 0 < t2 := lt_of_lt_of_le h1 h12
  rw [get_points_eval data g ek p rest t1 hl hs h1,
    get_points_eval data g ek p rest t2 hl hs h2]
  have hHL : p.1 ≤ ((p :: rest).getLast (List.cons_ne_nil p rest)).1 :=
    strict_head_le_getLast hs
  have hPts : ((p :: rest).getLast (List.cons_ne_nil p rest)).2 ≤ p.2 :=
    ptsNonInc_getLast_le_head hm
  have hp2 : 0 ≤ p.2 := hnn p (List.mem_cons_self p rest)
  have hl2 : 0 ≤ ((p :: rest).getLast (List.cons_ne_nil p rest)).2 :=
    hnn _ (List.getLast_mem (List.cons_ne_nil p rest))
  by_cases hA : t2 ≤ p.1
  · rw [if_pos hA, if_pos (le_trans h12 hA)]
  · rw [if_neg hA]
    by_cases hB : ((p :: rest).getLast (List.cons_ne_nil p rest)).1 ≤ t2
    · rw [if_pos hB]
      by_cases hC : t1 ≤ p.1
      · rw [if_pos hC]
        exact max_le hp2 (by nlinarith)
      · rw [if_neg hC]
        by_cases hD : ((p :: rest).getLast (List.cons_ne_nil p rest)).1 ≤ t1
        · rw [if_pos hD]
          exact max_le_max (le_refl 0) (by nlinarith)
        · rw [if_neg hD]
          cases rest with
          | nil =>
              exfalso
              simp only [List.getLast_singleton] at hD
              exact hD (le_of_lt (not_le.mp hC))
          | cons q t =>
              have hge : ((p :: q :: t).getLast (List.cons_ne_nil p (q :: t))).2 ≤
                  interpLinear (p :: q :: t) t1 := by
                have hmono := interpLinear_antitone (p :: q :: t) hs hm t1
                  (((p :: q :: t).getLast (List.cons_ne_nil p (q :: t))).1)
                  (le_of_lt (not_le.mp hD))
                rw [interpLinear_at_getLast t p q hs] at hmono
                exact hmono
              exact le_trans (max_le hl2 (by nlinarith)) hge
    · rw [if_neg hB]
      by_cases hC : t1 ≤ p.1
      · rw [if_pos hC]
        cases rest with
        | nil =>
            exfalso
            simp only [List.getLast_singleton] at hB
            exact hB (le_of_lt (not_le.mp hA))
        | cons q t =>
            have hmono := interpLinear_antitone (p :: q :: t) hs hm p.1 t2
              (le_of_lt (not_le.mp hA))
            rw [interpLinear_at_head t p q hs] at hmono
            exact hmono
      · rw [if_neg hC]
        have hD : ¬ ((p :: rest).getLast (List.cons_ne_nil p rest)).1 ≤ t1 :=
          fun hcon => hB (le_trans hcon h12)
        rw [if_neg hD]
        exact interpLinear_antitone (p :: rest) hs hm t1 t2 h12

/-- A score-style table where the penalty branch breaks monotonicity. -/
def dataB : GenderDict := [("Men's", [("Chin-ups", [(10, 100), (20, 200)])])]

/-- `dataB`'s table is strictly sorted. -/
lemma dataB_sorted : StrictTimes (((10:ℚ), (100:ℚ)) :: [((20:ℚ), (200:ℚ))]) := by
  unfold StrictTimes
  rw [List.chain'_cons]
  exact ⟨by norm_num, List.chain'_singleton _⟩

/-- C9 counterexample: the clamp-policy engine is not non-decreasing in
the raw score — on the increasing table `{10: 100, 20: 200}` the penalty
branch returns 190 at score 21 but 200 at score 20. -/
theorem C9_counterexample :
    (20:ℚ) ≤ 21 ∧
    get_points dataB "Men's" "Chin-ups" 20 = 200 ∧
    get_points dataB "Men's" "Chin-ups" 21 = 190 ∧
    ¬(get_points dataB "Men's" "Chin-ups" 20 ≤ get_points dataB "Men's" "Chin-ups" 21) := by
  have hlast : ((((10:ℚ), (100:ℚ)) :: [((20:ℚ), (200:ℚ))]).getLast
      (List.cons_ne_nil _ _)) = (20, 200) := rfl
  have h20 : get_points dataB "Men's" "Chin-ups" 20 = 200 := by
    rw [get_points_eval dataB "Men's" "Chin-ups" (10, 100) [(20, 200)] 20 rfl
      dataB_sorted (by norm_num), hlast]
    norm_num
  have h21 : get_points dataB "Men's" "Chin-ups" 21 = 190 := by
    rw [get_points_eval dataB "Men's" "Chin-ups" (10, 100) [(20, 200)] 21 rfl
      dataB_sorted (by norm_num), hlast]
    norm_num
  refine ⟨by norm_num, h20, h21, ?_⟩
  rw [h20, h21]
  norm_num

/-- C9 (amended): for a fixed age and event key, both engines are
non-increasing in elapsed time over a (strictly time-sorted) table with
non-increasing nonnegative points; the extrapolating engine
(`calculate_points`) is also non-decreasing in the raw score over a
non-decreasing table; but the clamp engine (`get_points`) is not
non-decreasing in the raw score, because its beyond-the-worst penalty
decreases (see the counterexample). -/
theorem C9_amended :
    (∀ data g ek p rest t1 t2, lookupEventData data g ek = p :: rest →
      StrictTimes (p :: rest) → PtsNonInc (p :: rest) →
      (∀ q ∈ p :: rest, 0 ≤ q.2) → 0 < t1 → t1 ≤ t2 →
      get_points data g ek t2 ≤ get_points data g ek t1) ∧
    (∀ s ek age ema tbl t1 t2, getPointTable s ek age ema = .ok (some tbl) →
      StrictTimes tbl → PtsNonInc tbl → 2 ≤ tbl.length → 0 < t1 → t1 ≤ t2 →
      ∃ p1 p2, calculate_points s ek (.num t1) age ema = .ok p1 ∧
        calculate_points s ek (.num t2) age ema = .ok p2 ∧ p2 ≤ p1) ∧
    (∀ s ek age ema tbl v1 v2, getPointTable s ek age ema = .ok (some tbl) →
      StrictTimes tbl → PtsNonDec tbl → 2 ≤ tbl.length → 0 < v1 → v1 ≤ v2 →
      ∃ p1 p2, calculate_points s ek (.num v1) age ema = .ok p1 ∧
        calculate_points s ek (.num v2) age ema = .ok p2 ∧ p1 ≤ p2) := by
  refine ⟨get_points_mono, ?_, ?_⟩
  · intro s ek age ema tbl t1 t2 h hs hm hlen h1 h12
    have h2 : 0 < t2 := lt_of_lt_of_le h1 h12
    exact ⟨max 0 (interpLinear tbl t1), max 0 (interpLinear tbl t2),
      calc_eval s ek age ema tbl t1 h hs hlen h1,
      calc_eval s ek age ema tbl t2 h hs hlen h2,
      max_le_max (le_refl 0) (interpLinear_antitone tbl hs hm t1 t2 h12)⟩
  · intro s ek age ema tbl v1 v2 h hs hm hlen h1 h12
    have h2 : 0 < v2 := lt_of_lt_of_le h1 h12
    exact ⟨max 0 (interpLinear tbl v1), max 0 (interpLinear tbl v2),
      calc_eval s ek age ema tbl v1 h hs hlen h1,
      calc_eval s ek age ema tbl v2 h hs hlen h2,
      max_le_max (le_refl 0) (interpLinear_monotone tbl hs hm v1 v2 h12)⟩

/-- `sys1`'s table is strictly sorted with non-increasing points. -/
lemma sys1_table_shape :
    StrictTimes (((10:ℚ), (100:ℚ)) :: [((20:ℚ), (50:ℚ))]) ∧
    PtsNonInc (((10:ℚ), (100:ℚ)) :: [((20:ℚ), (50:ℚ))]) := by
  constructor
  · unfold StrictTimes
    rw [List.chain'_cons]
    exact ⟨by norm_num, List.chain'_singleton _⟩
  · unfold PtsNonInc
    rw [List.chain'_cons]
    exact ⟨by norm_num, List.chain'_singleton _⟩

/-- C9 witness: both time-monotonicity clauses instantiated on concrete
tables — `get_points` on `tableC` at 42 ≤ 43, and `calculate_points` on
`sys1`'s table at 12 ≤ 18. -/
theorem C9_witness :
    get_points dataC "Men's" "100 Freestyle (SCY)" 43 ≤
      get_points dataC "Men's" "100 Freestyle (SCY)" 42 ∧
    (∃ p1 p2, calculate_points sys1 "Men's 100 Free" (.num 12) (some 10) Option.none = .ok p1 ∧
      calculate_points sys1 "Men's 100 Free" (.num 18) (some 10) Option.none = .ok p2 ∧
      p2 ≤ p1) := by
  constructor
  · refine C9_amended.1 dataC "Men's" "100 Freestyle (SCY)" (4123/100, 1000)
      [(4356/100, 950)] 42 43 rfl tableC_sorted ?_ ?_ (by norm_num) (by norm_num)
    · unfold PtsNonInc
      rw [List.chain'_cons]
      exact ⟨by norm_num, List.chain'_singleton _⟩
    · intro q hq
      simp only [List.mem_cons, List.not_mem_nil, or_false] at hq
      rcases hq with h | h <;> subst h <;> norm_num
  · exact C9_amended.2.1 sys1 "Men's 100 Free" (some 10) Option.none
      [(10, 100), (20, 50)] 12 18 (by decide) sys1_table_shape.1 sys1_table_shape.2
      (by norm_num) (by norm_num) (by norm_num)

/-- C10 witness: against the concrete table of `sys1`, a `None` value, a
zero value, a negative value and the string `"---"` (which parses to 0)
all earn 0 points; `get_points` at time 0 returns 0. -/
theorem C10_witness :
    getPointTable sys1 "Men's 100 Free" (some 10) Option.none =
      .ok (some [(10, 100), (20, 50)]) ∧
    calculate_points sys1 "Men's 100 Free" .none (some 10) Option.none = .ok 0 ∧
    calculate_points sys1 "Men's 100 Free" (.num 0) (some 10) Option.none = .ok 0 ∧
    calculate_points sys1 "Men's 100 Free" (.num (-5)) (some 10) Option.none = .ok 0 ∧
    calculate_points sys1 "Men's 100 Free" (.str "---") (some 10) Option.none = .ok 0 ∧
    get_points [] "Men's" "100 Free" 0 = 0 := by
  have ht : getPointTable sys1 "Men's 100 Free" (some 10) Option.none =
      .ok (some [(10, 100), (20, 50)]) := by decide
  have hp : parse_swim_time "---" = .ok 0 := by
    rw [parse_swim_time, if_pos (Or.inr rfl)]
  obtain ⟨h1, h2, h3⟩ := C10_nonpositive.1 sys1 "Men's 100 Free" (some 10) Option.none
    [(10, 100), (20, 50)] ht
  exact ⟨ht, h1, h2 0 le_rfl, h2 (-5) (by norm_num), h3 "---" 0 hp le_rfl,
    C10_nonpositive.2 [] "Men's" "100 Free" 0 le_rfl⟩

/-! ## Claim C8: best-value resolution -/

/-- C8 counterexample: a `Result` with final time 60 and prelim time 50 —
the priority pick is the final time 60, but the `Result.best_time`
property returns the minimum 50. -/
theorem C8_counterexample :
    best_time ⟨some 50, Option.none, some 60⟩ = 50 ∧
    specBestValue (some 60) (some 50) Option.none = some 60 ∧
    (50 : ℚ) ≠ 60 := by
  refine ⟨?_, ?_, by norm_num⟩
  · simp only [best_time, isPosTime]
    norm_num
  · simp only [specBestValue, List.filterMap]
    norm_num

/-- C8 (amended): the parser's best-time chain and the export task's
duplicate-key best time follow the spec's priority order — the first
present positive value among final, preliminary, swim-off — while the
`Result.best_time` model property instead returns the minimum present
positive time (see the counterexample). -/
theorem C8_amended :
    (∀ f p s, parserBestTime f p s = specBestValue f p s) ∧
    (∀ f p s, tasksBestTimeKey f p s =
      (match specBestValue f p s with
       | some q => format_swim_time q
       | Option.none => "")) := by
  constructor
  · intro f p s
    rcases f with _ | qf <;> rcases p with _ | qp <;> rcases s with _ | qs <;>
      simp only [parserBestTime, specBestValue, isPosTime, List.filterMap] <;>
      split_ifs <;> simp_all
  · intro f p s
    rcases f with _ | qf <;> rcases p with _ | qp <;> rcases s with _ | qs <;>
      simp only [tasksBestTimeKey, specBestValue, isPosTime, List.filterMap] <;>
      split_ifs <;> simp_all

end SwimScorer
